import Mathlib

/-!
Shallow embedding of the Odyss notes backend (`src/backend`): wikilink
parsing and resolution (`parse_links`, `update_note_links` in `main.py`),
note updates with version snapshots (`update_note`), version restore
(`restore_note_version`), folder deletion (`delete_folder`), vault creation
and deletion limits (`create_vault`, `delete_vault`), graph assembly
(`get_graph`), and the exception-normalising auth wrappers
(`verify_password`, `decode_token` in `auth.py`).

Database rows become Lean structures; a SQLAlchemy query with `.first()`
becomes `List.find?` over the table list in row order; a `raise
HTTPException` before any mutation becomes an error result paired with the
unchanged state.
-/

namespace OdyssVault

/-- A row of the `notes` table (`models.Note`): integer id, title, content,
optional folder and vault references, update timestamp (modelled as a
natural-number clock), and the outbound link set `links_to` stored as the
list of target note ids in insertion order (the SQLAlchemy relationship
list backed by the `note_links` join table). -/
structure Note where
  id : Nat
  title : String
  content : String
  folderId : Option Int
  vaultId : Option Nat
  updatedAt : Nat
  linksTo : List Nat
deriving Repr, DecidableEq

/-- Fuel-indexed left-to-right scanner embedding `re.findall` with the
pattern of `parse_links` in `main.py`: a match is `[[`, then a nonempty
maximal run of characters other than `]` (the capture), then `]]`;
scanning resumes after a match, and advances one character past the first
`[` on a failed attempt. The fuel only bounds recursion; `parse_links`
supplies enough for the whole input. -/
def parse_links_aux : Nat → List Char → List String
  | 0, _ => []
  | _ + 1, [] => []
  | fuel + 1, '[' :: '[' :: rest =>
      (match rest.dropWhile (fun c => c != ']') with
       | ']' :: ']' :: after =>
           let t := rest.takeWhile (fun c => c != ']')
           if t.isEmpty then parse_links_aux fuel ('[' :: rest)
           else String.mk t :: parse_links_aux fuel after
       | _ => parse_links_aux fuel ('[' :: rest))
  | fuel + 1, _ :: cs => parse_links_aux fuel cs

/-- `parse_links` from `main.py`: extract the captured wikilink titles from
a content string, in order of occurrence. -/
def parse_links (content : String) : List String :=
  parse_links_aux content.data.length content.data

/-- `update_note_links` from `main.py`: reset `links_to` to empty, then for
each parsed title append the id of the first note whose title matches
exactly, unless that note is the note being written itself; unmatched
titles are dropped. Returns the recomputed `links_to` list. -/
def update_note_links (db : List Note) (note : Note) : List Nat :=
  (parse_links note.content).filterMap fun title =>
    match db.find? (fun n => n.title == title) with
    | some target => if target.id ≠ note.id then some target.id else none
    | none => none

example : parse_links "[[A]]" = ["A"] := by decide
example : parse_links "see [[Plan]] and [[Idea]]" = ["Plan", "Idea"] := by decide
example : parse_links "[[a]b]]" = [] := by decide
example : parse_links "[[]]" = [] := by decide

/-- A row of the `note_versions` table (`models.NoteVersion`): an immutable
snapshot of a note's title and content. -/
structure NoteVersion where
  id : Nat
  noteId : Nat
  title : String
  content : String
deriving Repr, DecidableEq

/-- The slice of database state touched by the note endpoints: the `notes`
and `note_versions` tables in row order, plus the autoincrement counter for
version ids. -/
structure NoteDB where
  notes : List Note
  versions : List NoteVersion
  nextVersionId : Nat
deriving Repr, DecidableEq

/-- The error taxonomy of the endpoints under study: `notFound` models the
404 responses, `conflict` the 400/403 family (vault cap, default-vault
deletion). -/
inductive ApiError where
  | notFound
  | conflict
deriving Repr, DecidableEq

/-- The `NoteUpdate` request schema (`schemas.py`): every field optional. -/
structure NoteUpdate where
  title : Option String
  content : Option String
  folderId : Option Int
deriving Repr, DecidableEq

/-- Mutating the single row found by primary key: every row with that id is
replaced (ids are unique in reachable states, so this is the found row). -/
def replaceById (notes : List Note) (nid : Nat) (n' : Note) : List Note :=
  notes.map fun n => if n.id == nid then n' else n

/-- The snapshot condition of `update_note` in `main.py`: a version is
recorded exactly when a supplied title, stripped, differs from the
persisted title, or a supplied content differs from the persisted
content. `String.trim` models Python `str.strip()`. -/
def version_needed (upd : NoteUpdate) (note : Note) : Bool :=
  (match upd.title with
   | some t => t.trim != note.title
   | none => false)
  || (match upd.content with
      | some c => c != note.content
      | none => false)

/-- `update_note` (`PUT /notes/{id}` in `main.py`): 404 when the note is
missing; otherwise snapshot the pre-update title/content when
`version_needed`, apply title (stripped), content, and folder (a
non-positive folder id clears the folder), refresh the update timestamp,
and recompute the outbound links against the updated table. -/
def update_note (db : NoteDB) (noteId : Nat) (upd : NoteUpdate) (now : Nat) :
    Except ApiError NoteDB :=
  match db.notes.find? (fun n => n.id == noteId) with
  | none => .error .notFound
  | some note =>
    let snap := version_needed upd note
    let versions' :=
      if snap then db.versions ++ [⟨db.nextVersionId, note.id, note.title, note.content⟩]
      else db.versions
    let nextId' := if snap then db.nextVersionId + 1 else db.nextVersionId
    let note₁ : Note :=
      { note with
        title := match upd.title with | some t => t.trim | none => note.title
        content := match upd.content with | some c => c | none => note.content
        folderId := match upd.folderId with
                    | some f => if f > 0 then some f else none
                    | none => note.folderId
        updatedAt := now }
    let notes₁ := replaceById db.notes noteId note₁
    let note₂ := { note₁ with linksTo := update_note_links notes₁ note₁ }
    .ok { notes := replaceById notes₁ noteId note₂,
          versions := versions',
          nextVersionId := nextId' }

/-- `restore_note_version` (`POST /notes/{id}/versions/{vid}/restore` in
`main.py`): 404 when the note is missing or no version row has both the
requested version id and this note id; otherwise snapshot the current
title/content as a new version, overwrite title and content from the
version, refresh the update timestamp, and recompute outbound links. -/
def restore_note_version (db : NoteDB) (noteId versionId : Nat) (now : Nat) :
    Except ApiError NoteDB :=
  match db.notes.find? (fun n => n.id == noteId) with
  | none => .error .notFound
  | some note =>
    match db.versions.find? (fun v => v.id == versionId && v.noteId == noteId) with
    | none => .error .notFound
    | some version =>
      let versions' := db.versions ++ [⟨db.nextVersionId, note.id, note.title, note.content⟩]
      let note₁ : Note :=
        { note with title := version.title, content := version.content, updatedAt := now }
      let notes₁ := replaceById db.notes noteId note₁
      let note₂ := { note₁ with linksTo := update_note_links notes₁ note₁ }
      .ok { notes := replaceById notes₁ noteId note₂,
            versions := versions',
            nextVersionId := db.nextVersionId + 1 }

/-- A row of the `folders` table (`models.Folder`). -/
structure Folder where
  id : Int
  name : String
  parentId : Option Int
  vaultId : Option Nat
deriving Repr, DecidableEq

/-- The slice of database state touched by folder deletion. -/
structure FolderDB where
  folders : List Folder
  notes : List Note
deriving Repr, DecidableEq

/-- The per-note effect of `delete_folder`'s bulk update: a note filed in
the deleted folder has its folder reference cleared; any other note is
untouched. -/
def detachNote (folderId : Int) (n : Note) : Note :=
  if n.folderId == some folderId then { n with folderId := none } else n

/-- The flush-time effect of `db.delete(folder)` on the other folder rows:
the self-referential relationship pair of `models.py` line 56 carries no
delete cascade and no `passive_deletes`, so the ORM's default
de-association loads the rows whose `parent_id` references the deleted
folder and sets that column to empty before emitting the DELETE; any other
folder row is untouched. -/
def detachChildFolder (folderId : Int) (g : Folder) : Folder :=
  if g.parentId == some folderId then { g with parentId := none } else g

/-- `delete_folder` (`DELETE /folders/{id}` in `main.py`): 404 with the
state unchanged when the folder is missing; otherwise clear the folder
reference of every note filed in it (the explicit bulk update), null the
parent reference of every folder whose parent is the deleted folder (the
ORM's default de-association at flush of `db.delete`), and remove the
folder row. -/
def delete_folder (db : FolderDB) (folderId : Int) : Option ApiError × FolderDB :=
  match db.folders.find? (fun f => f.id == folderId) with
  | none => (some .notFound, db)
  | some _ =>
    (none,
     { folders := (db.folders.map (detachChildFolder folderId)).eraseP (fun f => f.id == folderId),
       notes := db.notes.map (detachNote folderId) })

/-- A row of the `vaults` table (`models.Vault`). -/
structure Vault where
  id : Nat
  name : String
  ownerId : Nat
  isDefault : Bool
deriving Repr, DecidableEq

/-- `create_vault` (`POST /vaults` in `main.py`): count the caller's
vaults; at three or more, fail (403, modelled `conflict`) with the state
unchanged; otherwise append a new non-default vault. -/
def create_vault (vaults : List Vault) (userId : Nat) (name : String) (newId : Nat) :
    Option ApiError × List Vault :=
  let vaultCount := (vaults.filter (fun v => v.ownerId == userId)).length
  if vaultCount ≥ 3 then (some .conflict, vaults)
  else (none, vaults ++ [⟨newId, name, userId, false⟩])

/-- `delete_vault` (`DELETE /vaults/{id}` in `main.py`): look up the vault
by id among the caller's vaults (404 when absent); refuse to delete a
default vault (403, modelled `conflict`) with the state unchanged;
otherwise remove the row. -/
def delete_vault (vaults : List Vault) (userId : Nat) (vaultId : Nat) :
    Option ApiError × List Vault :=
  match vaults.find? (fun v => v.id == vaultId && v.ownerId == userId) with
  | none => (some .notFound, vaults)
  | some vault =>
    if vault.isDefault then (some .conflict, vaults)
    else (none, vaults.eraseP (fun v => v.id == vaultId && v.ownerId == userId))

/-- A node of the graph view (`schemas.GraphNode`). -/
structure GraphNode where
  id : Nat
  title : String
  folderId : Option Int
deriving Repr, DecidableEq

/-- A directed edge of the graph view (`schemas.GraphEdge`). -/
structure GraphEdge where
  source : Nat
  target : Nat
deriving Repr, DecidableEq

/-- The graph view payload (`schemas.GraphData`). -/
structure GraphData where
  nodes : List GraphNode
  edges : List GraphEdge
deriving Repr, DecidableEq

/-- `get_graph` (`GET /graph` in `main.py`): optionally filter the notes to
one vault, emit one node per remaining note, and one edge per entry of each
remaining note's stored `links_to` list. Link targets are taken as stored,
with no vault check. -/
def get_graph (notes : List Note) (vaultId : Option Nat) : GraphData :=
  let filtered :=
    match vaultId with
    | none => notes
    | some v => notes.filter (fun n => n.vaultId == some v)
  { nodes := filtered.map (fun n => ⟨n.id, n.title, n.folderId⟩),
    edges := filtered.flatMap (fun n => n.linksTo.map (fun t => ⟨n.id, t⟩)) }

/-- Outcome of a call into the bcrypt library (`bcrypt.checkpw`), an
external collaborator: either a boolean verdict or a raised exception
(malformed or corrupted hash). -/
inductive BcryptOutcome where
  | ok (b : Bool)
  | raised
deriving Repr, DecidableEq

/-- `verify_password` from `auth.py`: call `bcrypt.checkpw` inside
`try/except Exception`, returning the verdict on success and `false` when
the library raises. The library call is passed in as an oracle. -/
def verify_password (checkpw : String → String → BcryptOutcome)
    (plain hashed : String) : Bool :=
  match checkpw plain hashed with
  | .ok b => b
  | .raised => false

/-- Outcome of a call into the PyJWT library (`jwt.decode`), an external
collaborator: a decoded payload, an `ExpiredSignatureError`, or an
`InvalidTokenError`. -/
inductive JwtOutcome (P : Type) where
  | ok (payload : P)
  | expiredSignature
  | invalidToken
deriving Repr, DecidableEq

/-- `decode_token` from `auth.py`: call `jwt.decode`, returning the payload
on success and `none` when the library raises `ExpiredSignatureError` or
`InvalidTokenError` (the exceptions `jwt.decode` raises). The library call
is passed in as an oracle. -/
def decode_token {P : Type} (jwtDecode : String → JwtOutcome P)
    (token : String) : Option P :=
  match jwtDecode token with
  | .ok payload => some payload
  | .expiredSignature => none
  | .invalidToken => none

/-! ## Theorems -/

/-- C6: for every database state and every note, recomputing the note's
outbound links never produces an edge from the note to itself, even when
the content wikilinks the note's own title. -/
theorem links_no_self_edge (db : List Note) (note : Note) (i : Nat)
    (hmem : i ∈ update_note_links db note) : i ≠ note.id := by
  simp only [update_note_links, List.mem_filterMap] at hmem
  obtain ⟨t, -, ht⟩ := hmem
  cases hfind : db.find? (fun n => n.title == t) with
  | none => rw [hfind] at ht; cases ht
  | some target =>
    rw [hfind] at ht
    dsimp only at ht
    by_cases h : target.id ≠ note.id
    · rw [if_pos h] at ht
      rw [← Option.some.inj ht]
      exact h
    · rw [if_neg h] at ht
      cases ht

/-- A note whose content wikilinks its own title "A" and another note's
title "B". -/
def selfLinkNote : Note := ⟨1, "A", "[[A]] and [[B]]", none, none, 0, []⟩

/-- The other note, titled "B". -/
def otherNoteB : Note := ⟨2, "B", "", none, none, 0, []⟩

/-- Witness for C6 at a concrete state: the self-reference `[[A]]` is
dropped and the only produced link, to note 2, differs from the writing
note's id. -/
theorem links_no_self_edge_witness :
    2 ∈ update_note_links [selfLinkNote, otherNoteB] selfLinkNote ∧
    (2 : Nat) ≠ selfLinkNote.id :=
  ⟨by decide, links_no_self_edge [selfLinkNote, otherNoteB] selfLinkNote 2 (by decide)⟩

/-- A note whose content names the same existing title twice. -/
def noteTitledA : Note := ⟨1, "A", "", none, none, 0, []⟩

/-- A note whose content contains the wikilink `[[A]]` twice. -/
def noteDoubleLink : Note := ⟨2, "B", "[[A]] and [[A]]", none, none, 0, []⟩

/-- C5: the link recomputation appends one entry per wikilink occurrence,
so content naming the same existing title twice yields the duplicate
(source, target) pair (2, 1) twice — contradicting the `note_links` join
table's composite primary key declared in `models.py`, which makes the
write fail on the duplicate pair rather than storing a deduplicated set. -/
theorem links_duplicate_pair_bug :
    update_note_links [noteTitledA, noteDoubleLink] noteDoubleLink = [1, 1] ∧
    ((update_note_links [noteTitledA, noteDoubleLink] noteDoubleLink).map
        (fun t => (noteDoubleLink.id, t))) = [(2, 1), (2, 1)] ∧
    ¬ (update_note_links [noteTitledA, noteDoubleLink] noteDoubleLink).Nodup := by
  refine ⟨by decide, by decide, by decide⟩

/-- C7: with three or more vaults already owned, creating another fails
with the conflict error and the vault table is unchanged; deleting one of
the caller's vaults that is flagged default fails with the conflict error
and the vault table is unchanged. -/
theorem vault_limits (vaults : List Vault) (userId : Nat) (name : String)
    (newId vaultId : Nat) :
    ((vaults.filter (fun v => v.ownerId == userId)).length ≥ 3 →
        create_vault vaults userId name newId = (some .conflict, vaults)) ∧
    (∀ vault, vaults.find? (fun v => v.id == vaultId && v.ownerId == userId) = some vault →
        vault.isDefault = true →
        delete_vault vaults userId vaultId = (some .conflict, vaults)) := by
  constructor
  · intro h
    simp only [create_vault, if_pos h]
  · intro vault hfind hdef
    simp only [delete_vault, hfind, hdef, if_pos]

/-- Three vaults owned by user 7, the first flagged default. -/
def threeVaults : List Vault :=
  [⟨1, "My Vault", 7, true⟩, ⟨2, "Work", 7, false⟩, ⟨3, "Play", 7, false⟩]

/-- Witness for C7 at a concrete state: a fourth vault is refused and the
default vault cannot be deleted, both leaving the table unchanged. -/
theorem vault_limits_witness :
    create_vault threeVaults 7 "Extra" 4 = (some .conflict, threeVaults) ∧
    delete_vault threeVaults 7 1 = (some .conflict, threeVaults) :=
  ⟨(vault_limits threeVaults 7 "Extra" 4 1).1 (by decide),
   (vault_limits threeVaults 7 "Extra" 4 1).2 ⟨1, "My Vault", 7, true⟩ (by decide) (by decide)⟩

/-- C9: the auth wrappers are total. Whatever the bcrypt library call does,
`verify_password` returns its boolean verdict on success and `false` when
the library raises; whatever the jwt library call does, `decode_token`
returns the payload on success and `none` on an expired or invalid
token — no exception escapes either wrapper. -/
theorem auth_wrappers_total {P : Type} (checkpw : String → String → BcryptOutcome)
    (jwtDecode : String → JwtOutcome P) (plain hashed token : String) :
    (checkpw plain hashed = .raised → verify_password checkpw plain hashed = false) ∧
    (∀ b, checkpw plain hashed = .ok b → verify_password checkpw plain hashed = b) ∧
    (∀ p, jwtDecode token = .ok p → decode_token jwtDecode token = some p) ∧
    (jwtDecode token = .expiredSignature → decode_token jwtDecode token = none) ∧
    (jwtDecode token = .invalidToken → decode_token jwtDecode token = none) := by
  refine ⟨?_, ?_, ?_, ?_, ?_⟩ <;>
    first
      | (intro h; simp [verify_password, decode_token, h])
      | (intro x h; simp [verify_password, decode_token, h])

/-- Witness for C9 at concrete oracles: a raising bcrypt call verifies to
`false` and an expired token decodes to `none`. -/
theorem auth_wrappers_total_witness :
    verify_password (fun _ _ => .raised) "pw" "corrupted" = false ∧
    @decode_token Nat (fun _ => .expiredSignature) "tok" = none :=
  ⟨(@auth_wrappers_total Nat (fun _ _ => .raised) (fun _ => .expiredSignature)
      "pw" "corrupted" "tok").1 rfl,
   (@auth_wrappers_total Nat (fun _ _ => .raised) (fun _ => .expiredSignature)
      "pw" "corrupted" "tok").2.2.2.1 rfl⟩

/-- Modelled from C1's words, for comparison with `update_note_links`: the
ids of all existing notes whose title equals some wikilink title parsed
from the content, the note itself excluded. -/
def claimed_link_ids (db : List Note) (note : Note) : List Nat :=
  (db.filter (fun n => n.id != note.id && (parse_links note.content).contains n.title)).map
    (fun n => n.id)

/-- C1 (amended): the recomputed outbound link set contains exactly the ids
`i ≠ note.id` such that some wikilink title parsed from the new content
resolves — via first match in table row order — to the note with id `i`.
The result depends only on the new content and the current table, so any
link not re-derived from the new content is gone. -/
theorem links_recompute_characterization (db : List Note) (note : Note) (i : Nat) :
    i ∈ update_note_links db note ↔
      (i ≠ note.id ∧ ∃ t ∈ parse_links note.content,
        ∃ m, db.find? (fun n => n.title == t) = some m ∧ m.id = i) := by
  simp only [update_note_links, List.mem_filterMap]
  constructor
  · rintro ⟨t, hmem, ht⟩
    cases hfind : db.find? (fun n => n.title == t) with
    | none => rw [hfind] at ht; cases ht
    | some m =>
      rw [hfind] at ht
      dsimp only at ht
      by_cases hne : m.id ≠ note.id
      · rw [if_pos hne] at ht
        obtain rfl := Option.some.inj ht
        exact ⟨hne, t, hmem, m, hfind, rfl⟩
      · rw [if_neg hne] at ht
        cases ht
  · rintro ⟨hne, t, hmem, m, hfind, rfl⟩
    refine ⟨t, hmem, ?_⟩
    rw [hfind]
    dsimp only
    rw [if_pos hne]

/-- One of two notes sharing the title "A". -/
def noteA1 : Note := ⟨1, "A", "", none, none, 0, []⟩

/-- The second note titled "A"; title uniqueness is not enforced at the
storage level. -/
def noteA2 : Note := ⟨2, "A", "", none, none, 0, []⟩

/-- A note whose content wikilinks the duplicated title "A". -/
def noteLinker : Note := ⟨3, "B", "[[A]]", none, none, 0, []⟩

/-- C1 fails as stated: note 2 is an existing note whose title "A" equals a
wikilink title parsed from the content and differs from the writing note,
yet the recomputation links only the first note titled "A", so 2 is absent
from the recomputed link set. -/
theorem links_recompute_counterexample :
    2 ∈ claimed_link_ids [noteA1, noteA2, noteLinker] noteLinker ∧
    2 ∉ update_note_links [noteA1, noteA2, noteLinker] noteLinker := by
  refine ⟨by decide, by decide⟩

/-- Helper: `takeWhile` passes over a block on which the predicate holds. -/
theorem takeWhile_append_of_all {p : Char → Bool} {l m : List Char}
    (h : ∀ c ∈ l, p c = true) : (l ++ m).takeWhile p = l ++ m.takeWhile p := by
  induction l with
  | nil => simp
  | cons a as ih =>
    have ha : p a = true := h a (List.mem_cons_self a as)
    simp only [List.cons_append, List.takeWhile_cons, ha, if_true]
    rw [ih fun c hc => h c (List.mem_cons_of_mem a hc)]

/-- Helper: `dropWhile` consumes a block on which the predicate holds. -/
theorem dropWhile_append_of_all {p : Char → Bool} {l m : List Char}
    (h : ∀ c ∈ l, p c = true) : (l ++ m).dropWhile p = m.dropWhile p := by
  induction l with
  | nil => simp
  | cons a as ih =>
    have ha : p a = true := h a (List.mem_cons_self a as)
    simp only [List.cons_append, List.dropWhile_cons, ha, if_true]
    exact ih fun c hc => h c (List.mem_cons_of_mem a hc)

/-- Helper: the scanner yields nothing on an exhausted input. -/
theorem parse_links_aux_nil (fuel : Nat) : parse_links_aux fuel [] = [] := by
  cases fuel <;> rfl

/-- Helper: one successful step of the scanner — after `[[`, a nonempty
capture of non-`]` characters closed by `]]` is recorded and scanning
resumes after the match. -/
theorem parse_links_aux_match (fuel : Nat) (rest after t : List Char)
    (ht : rest.takeWhile (fun c => c != ']') = t)
    (hd : rest.dropWhile (fun c => c != ']') = ']' :: ']' :: after)
    (hne : t.isEmpty = false) :
    parse_links_aux (fuel + 1) ('[' :: '[' :: rest) =
      String.mk t :: parse_links_aux fuel after := by
  simp only [parse_links_aux, hd, ht, hne]
  rfl

/-- C2 (amended): the extraction captures maximal nonempty runs of
characters other than `]` between `[[` and `]]`; in particular, for every
nonempty title containing no `]` character at all, the content
`[[` + title + `]]` yields exactly that title. -/
theorem parse_links_roundtrip (title : String)
    (hne : title.data ≠ [])
    (hnb : ∀ c ∈ title.data, c ≠ ']') :
    parse_links ("[[" ++ title ++ "]]") = [title] := by
  have hall : ∀ c ∈ title.data, (c != ']') = true := by
    intro c hc
    simpa using hnb c hc
  have hdata : ("[[" ++ title ++ "]]").data = '[' :: '[' :: (title.data ++ [']', ']']) := by
    simp [String.data_append]
  have hlen : ("[[" ++ title ++ "]]").data.length = (title.data.length + 3) + 1 := by
    rw [hdata]
    simp
  have htake : (title.data ++ [']', ']']).takeWhile (fun c => c != ']') = title.data := by
    rw [takeWhile_append_of_all hall]
    simp
  have hdrop : (title.data ++ [']', ']']).dropWhile (fun c => c != ']') = ']' :: ']' :: [] := by
    rw [dropWhile_append_of_all hall]
    simp
  have hempty : title.data.isEmpty = false := by
    cases h : title.data with
    | nil => exact absurd h hne
    | cons a as => rfl
  rw [parse_links, hlen, hdata,
    parse_links_aux_match (title.data.length + 3) (title.data ++ [']', ']']) [] title.data
      htake hdrop hempty,
    parse_links_aux_nil]

/-- Witness for the amended C2 at the concrete title "a". -/
theorem parse_links_roundtrip_witness :
    parse_links ("[[" ++ "a" ++ "]]") = ["a"] :=
  parse_links_roundtrip "a" (by decide) (by decide)

/-- C2 fails as stated: the title `a]b` contains no `]]`, and the next
`]]` after the opening `[[` of the content `[[a]b]]` closes it, so the
claim predicts the extraction `a]b`; but the pattern's character class
excludes every `]`, so the code extracts nothing at all. -/
theorem parse_links_counterexample :
    ("[[" ++ "a]b" ++ "]]" = "[[a]b]]") ∧
    ¬ List.IsInfix [']', ']'] "a]b".data ∧
    parse_links "[[a]b]]" = [] := by
  refine ⟨by decide, by decide, by decide⟩

/-- Helper: the Boolean snapshot condition of `update_note` holds exactly
when a supplied stripped title differs from the persisted title or a
supplied content differs from the persisted content. -/
theorem version_needed_iff (upd : NoteUpdate) (note : Note) :
    version_needed upd note = true ↔
      ((∃ t, upd.title = some t ∧ t.trim ≠ note.title) ∨
       (∃ c, upd.content = some c ∧ c ≠ note.content)) := by
  rcases upd with ⟨titleOpt, contentOpt, folderOpt⟩
  cases titleOpt <;> cases contentOpt <;>
    simp [version_needed, bne_iff_ne]

/-- C3: on an update request against an existing note, the update succeeds
and: if the supplied stripped title differs from the persisted title or
the supplied content differs from the persisted content, exactly one new
`NoteVersion` is appended, holding the pre-update title and content; if
every supplied title/content equals the persisted value (in particular on
a folder-only update), the version table is unchanged. -/
theorem update_note_versioning (db : NoteDB) (noteId : Nat) (upd : NoteUpdate)
    (now : Nat) (note : Note)
    (hfind : db.notes.find? (fun n => n.id == noteId) = some note) :
    ∃ db', update_note db noteId upd now = .ok db' ∧
      (((∃ t, upd.title = some t ∧ t.trim ≠ note.title) ∨
        (∃ c, upd.content = some c ∧ c ≠ note.content)) →
          db'.versions = db.versions ++ [⟨db.nextVersionId, note.id, note.title, note.content⟩]) ∧
      (((∀ t, upd.title = some t → t.trim = note.title) ∧
        (∀ c, upd.content = some c → c = note.content)) →
          db'.versions = db.versions) := by
  simp only [update_note, hfind]
  refine ⟨_, rfl, ?_, ?_⟩
  · intro hchanged
    have hv : version_needed upd note = true := (version_needed_iff upd note).mpr hchanged
    simp [hv]
  · intro ⟨hts, hcs⟩
    have hv : version_needed upd note = false := by
      rw [Bool.eq_false_iff]
      intro habs
      rcases (version_needed_iff upd note).mp habs with ⟨t, hsome, hneq⟩ | ⟨c, hsome, hneq⟩
      · exact hneq (hts t hsome)
      · exact hneq (hcs c hsome)
    simp [hv]

/-- Witness for C3 at a concrete state: updating content from "X" to "Y"
appends exactly the snapshot of the pre-update values. -/
theorem update_note_versioning_witness :
    ∃ db', update_note ⟨[⟨1, "T", "X", none, none, 0, []⟩], [], 0⟩ 1
        ⟨none, some "Y", none⟩ 1 = .ok db' ∧
      db'.versions = [⟨0, 1, "T", "X"⟩] := by
  obtain ⟨db', hok, hchanged, -⟩ :=
    update_note_versioning ⟨[⟨1, "T", "X", none, none, 0, []⟩], [], 0⟩ 1
      ⟨none, some "Y", none⟩ 1 ⟨1, "T", "X", none, none, 0, []⟩ (by decide)
  exact ⟨db', hok, by simpa using hchanged (Or.inr ⟨"Y", rfl, by decide⟩)⟩

/-- Helper: after replacing the row with a given id, looking that id up
finds the replacement, provided the lookup succeeded before and the
replacement carries the id. -/
theorem find?_replaceById (l : List Note) (nid : Nat) (a x : Note)
    (hx : l.find? (fun n => n.id == nid) = some x) (ha : (a.id == nid) = true) :
    (replaceById l nid a).find? (fun n => n.id == nid) = some a := by
  induction l with
  | nil => simp at hx
  | cons y ys ih =>
    simp only [replaceById, List.map_cons]
    by_cases h : (y.id == nid) = true
    · rw [if_pos h]
      simp only [List.find?_cons, ha, cond_true]
    · rw [if_neg h]
      have h' : (y.id == nid) = false := by simpa using h
      simp only [List.find?_cons, h', cond_false] at hx ⊢
      exact ih hx

/-- The overwrite step of `restore_note_version`: the note with the
version's title and content and a refreshed timestamp, before the link
recompute. -/
def restoredNote (note : Note) (version : NoteVersion) (now : Nat) : Note :=
  { note with title := version.title, content := version.content, updatedAt := now }

/-- C4: restoring a version fails with `notFound` when the note does not
exist or when no version row carries both the requested version id and the
note id; otherwise exactly one new version holding the pre-restore title
and content is appended (so the restore is itself undoable), the note's
title and content become the version's values, its update timestamp is
refreshed, and its outbound links are recomputed from the restored content
against the updated table. -/
theorem restore_version_behavior (db : NoteDB) (noteId versionId now : Nat) :
    (db.notes.find? (fun n => n.id == noteId) = none →
        restore_note_version db noteId versionId now = .error .notFound) ∧
    (∀ note, db.notes.find? (fun n => n.id == noteId) = some note →
        db.versions.find? (fun v => v.id == versionId && v.noteId == noteId) = none →
        restore_note_version db noteId versionId now = .error .notFound) ∧
    (∀ note version, db.notes.find? (fun n => n.id == noteId) = some note →
        db.versions.find? (fun v => v.id == versionId && v.noteId == noteId) = some version →
        ∃ db' note',
          restore_note_version db noteId versionId now = .ok db' ∧
          db'.versions = db.versions ++ [⟨db.nextVersionId, note.id, note.title, note.content⟩] ∧
          db'.notes.find? (fun n => n.id == noteId) = some note' ∧
          note'.title = version.title ∧
          note'.content = version.content ∧
          note'.updatedAt = now ∧
          note'.linksTo =
            update_note_links (replaceById db.notes noteId (restoredNote note version now))
              (restoredNote note version now)) := by
  refine ⟨?_, ?_, ?_⟩
  · intro h
    simp [restore_note_version, h]
  · intro note hn hv
    simp [restore_note_version, hn, hv]
  · intro note version hn hv
    have hid : (note.id == noteId) = true := by
      have := List.find?_some hn
      simpa using this
    simp only [restore_note_version, hn, hv]
    have h1 := find?_replaceById db.notes noteId (restoredNote note version now) note hn hid
    have h2 := find?_replaceById
      (replaceById db.notes noteId (restoredNote note version now))
      noteId
      { restoredNote note version now with
          linksTo :=
            update_note_links (replaceById db.notes noteId (restoredNote note version now))
              (restoredNote note version now) }
      (restoredNote note version now)
      h1 hid
    exact ⟨_, _, rfl, rfl, h2, rfl, rfl, rfl, rfl⟩

/-- A one-note, one-version state to exercise the restore path. -/
def restoreDb : NoteDB :=
  ⟨[⟨1, "N", "old", none, none, 0, []⟩], [⟨10, 1, "V", "new body"⟩], 5⟩

/-- Witness for C4 at a concrete state: restoring version 10 onto note 1
snapshots the pre-restore values and overwrites title and content. -/
theorem restore_version_behavior_witness :
    ∃ db' note', restore_note_version restoreDb 1 10 9 = .ok db' ∧
      db'.versions = restoreDb.versions ++ [⟨5, 1, "N", "old"⟩] ∧
      db'.notes.find? (fun n => n.id == 1) = some note' ∧
      note'.title = "V" ∧ note'.content = "new body" := by
  obtain ⟨db', note', hok, hver, hfind, htitle, hcontent, -, -⟩ :=
    (restore_version_behavior restoreDb 1 10 9).2.2 ⟨1, "N", "old", none, none, 0, []⟩
      ⟨10, 1, "V", "new body"⟩ (by decide) (by decide)
  exact ⟨db', note', hok, hver, hfind, htitle, hcontent⟩

/-- Helper: when folder ids are unique, erasing the first row with a given
id is the same as filtering out every row with that id. -/
theorem eraseP_eq_filter_of_nodup (l : List Folder) (x : Int)
    (h : (l.map (fun f => f.id)).Nodup) :
    l.eraseP (fun f => f.id == x) = l.filter (fun f => f.id != x) := by
  induction l with
  | nil => rfl
  | cons a as ih =>
    simp only [List.map_cons, List.nodup_cons] at h
    obtain ⟨hnotin, hnd⟩ := h
    by_cases hax : (a.id == x) = true
    · have hx : a.id = x := by simpa using hax
      rw [List.eraseP_cons, hax, cond_true, List.filter_cons]
      have : (a.id != x) = false := by simp [hx]
      rw [this]
      simp only [Bool.false_eq_true, if_false]
      symm
      rw [List.filter_eq_self]
      intro b hb
      have : b.id ≠ x := fun hbx => hnotin (by rw [← hx] at hbx; exact hbx ▸ List.mem_map_of_mem _ hb)
      simpa using this
    · have haf : (a.id == x) = false := by simpa using hax
      have hne : (a.id != x) = true := by simpa using hax
      rw [List.eraseP_cons, haf, cond_false, List.filter_cons, hne]
      simp only [if_true]
      rw [ih hnd]

/-- Helper: nulling a parent reference does not change a folder's id. -/
theorem detachChildFolder_id (folderId : Int) (g : Folder) :
    (detachChildFolder folderId g).id = g.id := by
  unfold detachChildFolder
  split <;> rfl

/-- Helper: the folder ids are unchanged by the flush-time de-association
of child folders. -/
theorem map_id_detachChildFolder (folderId : Int) (l : List Folder) :
    (l.map (detachChildFolder folderId)).map (fun f => f.id) = l.map (fun f => f.id) := by
  induction l with
  | nil => rfl
  | cons a as ih => simp [detachChildFolder_id, ih]

/-- C8 (amended): deleting a missing folder fails with `notFound` and
leaves the state unchanged; deleting an existing folder F succeeds and
(a) rewrites the notes table pointwise by `detachNote`, which clears the
folder reference of exactly the notes filed in F and changes no other
field of any note, (b) removes every folder row with F's id (ids being
unique) and rewrites every other folder row pointwise by
`detachChildFolder`, which nulls the parent reference of exactly the
folders whose parent is F — it does not leave them pointing at the
removed id — and changes no other field of any folder. -/
theorem delete_folder_frame (db : FolderDB) (folderId : Int)
    (hnodup : (db.folders.map (fun f => f.id)).Nodup) :
    (db.folders.find? (fun f => f.id == folderId) = none →
        delete_folder db folderId = (some .notFound, db)) ∧
    (∀ fold, db.folders.find? (fun f => f.id == folderId) = some fold →
        ∃ db', delete_folder db folderId = (none, db') ∧
          db'.notes = db.notes.map (detachNote folderId) ∧
          (∀ n : Note,
            (detachNote folderId n).folderId =
                (if n.folderId = some folderId then none else n.folderId) ∧
            (detachNote folderId n).id = n.id ∧
            (detachNote folderId n).title = n.title ∧
            (detachNote folderId n).content = n.content ∧
            (detachNote folderId n).vaultId = n.vaultId ∧
            (detachNote folderId n).updatedAt = n.updatedAt ∧
            (detachNote folderId n).linksTo = n.linksTo) ∧
          db'.folders =
            (db.folders.map (detachChildFolder folderId)).filter (fun g => g.id != folderId) ∧
          (∀ g : Folder,
            (detachChildFolder folderId g).parentId =
                (if g.parentId = some folderId then none else g.parentId) ∧
            (detachChildFolder folderId g).id = g.id ∧
            (detachChildFolder folderId g).name = g.name ∧
            (detachChildFolder folderId g).vaultId = g.vaultId) ∧
          (∀ g ∈ db.folders, g.id ≠ folderId →
            detachChildFolder folderId g ∈ db'.folders)) := by
  have hnodup' : ((db.folders.map (detachChildFolder folderId)).map (fun f => f.id)).Nodup := by
    rw [map_id_detachChildFolder]
    exact hnodup
  have hfold : (db.folders.map (detachChildFolder folderId)).eraseP (fun f => f.id == folderId) =
      (db.folders.map (detachChildFolder folderId)).filter (fun g => g.id != folderId) :=
    eraseP_eq_filter_of_nodup _ folderId hnodup'
  constructor
  · intro h
    simp [delete_folder, h]
  · intro fold hfind
    have hres : delete_folder db folderId =
        (none, ⟨(db.folders.map (detachChildFolder folderId)).eraseP (fun f => f.id == folderId),
                db.notes.map (detachNote folderId)⟩) := by
      simp [delete_folder, hfind]
    refine ⟨_, hres, rfl, ?_, ?_, ?_, ?_⟩
    · intro n
      by_cases h : (n.folderId == some folderId) = true
      · have h' : n.folderId = some folderId := by simpa using h
        simp [detachNote, h, h']
      · have h' : n.folderId ≠ some folderId := by simpa using h
        simp [detachNote, h, h']
    · exact hfold
    · intro g
      refine ⟨?_, detachChildFolder_id folderId g, ?_, ?_⟩
      · by_cases h : (g.parentId == some folderId) = true
        · have h' : g.parentId = some folderId := by simpa using h
          simp [detachChildFolder, h, h']
        · have h' : g.parentId ≠ some folderId := by simpa using h
          simp [detachChildFolder, h, h']
      · unfold detachChildFolder
        split <;> rfl
      · unfold detachChildFolder
        split <;> rfl
    · intro g hg hne
      show detachChildFolder folderId g ∈
        (db.folders.map (detachChildFolder folderId)).eraseP (fun f => f.id == folderId)
      rw [hfold]
      refine List.mem_filter.mpr ⟨List.mem_map_of_mem _ hg, ?_⟩
      rw [detachChildFolder_id]
      simpa using hne

/-- A folder tree with a child pointing at its parent, and two filed
notes. -/
def folderDbExample : FolderDB :=
  ⟨[⟨1, "root", none, none⟩, ⟨2, "child", some 1, none⟩],
   [⟨1, "n1", "", some 1, none, 0, []⟩, ⟨2, "n2", "", some 2, none, 0, []⟩]⟩

/-- Witness for the amended C8 at a concrete state: deleting the root
folder detaches the note filed in it and the surviving child folder is its
de-associated version, with the parent reference nulled. -/
theorem delete_folder_frame_witness :
    ∃ db', delete_folder folderDbExample 1 = (none, db') ∧
      db'.notes = folderDbExample.notes.map (detachNote 1) ∧
      db'.folders =
        (folderDbExample.folders.map (detachChildFolder 1)).filter (fun g => g.id != 1) ∧
      detachChildFolder 1 ⟨2, "child", some 1, none⟩ ∈ db'.folders := by
  obtain ⟨db', hres, hnotes, -, hfolders, -, hmem⟩ :=
    (delete_folder_frame folderDbExample 1 (by decide)).2 ⟨1, "root", none, none⟩ (by decide)
  exact ⟨db', hres, hnotes, hfolders,
    hmem ⟨2, "child", some 1, none⟩ (by decide) (by decide)⟩

/-- C8 fails as stated: deleting folder 1 in the concrete state leaves
exactly the child row with its parent reference nulled by the flush-time
de-association — the row still pointing at the removed id is gone, so
parent references are modified rather than left dangling. -/
theorem delete_folder_dangling_counterexample :
    (delete_folder folderDbExample 1).2.folders = [⟨2, "child", none, none⟩] ∧
    (⟨2, "child", some 1, none⟩ : Folder) ∉ (delete_folder folderDbExample 1).2.folders := by
  refine ⟨by decide, by decide⟩

/-- A note in vault 1 whose content wikilinks a title that lives in
vault 2, before link resolution. -/
def crossVaultNoteA0 : Note := ⟨1, "A", "[[B]]", none, some 1, 0, []⟩

/-- The link target, a note in vault 2. -/
def crossVaultNoteB : Note := ⟨2, "B", "", none, some 2, 0, []⟩

/-- The vault-1 note after link resolution, which matches titles across
all notes regardless of vault and so links to the vault-2 note. -/
def crossVaultNoteA : Note :=
  { crossVaultNoteA0 with
      linksTo := update_note_links [crossVaultNoteA0, crossVaultNoteB] crossVaultNoteA0 }

/-- The two-vault state used to exhibit a cross-vault edge. -/
def crossVaultDb : List Note := [crossVaultNoteA, crossVaultNoteB]

/-- C10: in a vault-filtered graph, every emitted edge's source id is the
id of one of the emitted nodes; but an edge's target id can belong to a
note outside the filtered vault and thus be absent from the emitted node
set, as the cross-vault state built with the link resolver shows. -/
theorem graph_edge_endpoints :
    (∀ (notes : List Note) (v : Nat) (e : GraphEdge),
        e ∈ (get_graph notes (some v)).edges →
        e.source ∈ (get_graph notes (some v)).nodes.map (fun n => n.id)) ∧
    ((⟨1, 2⟩ : GraphEdge) ∈ (get_graph crossVaultDb (some 1)).edges ∧
      (2 : Nat) ∉ (get_graph crossVaultDb (some 1)).nodes.map (fun n => n.id)) := by
  constructor
  · intro notes v e he
    simp only [get_graph, List.mem_flatMap, List.mem_map] at he ⊢
    obtain ⟨n, hn, t, -, rfl⟩ := he
    exact ⟨⟨n.id, n.title, n.folderId⟩, ⟨n, hn, rfl⟩, rfl⟩
  · exact ⟨by decide, by decide⟩

/-- Witness for C10's universal part at the concrete cross-vault state:
the emitted edge's source 1 is an emitted node id. -/
theorem graph_edge_endpoints_witness :
    (1 : Nat) ∈ (get_graph crossVaultDb (some 1)).nodes.map (fun n => n.id) :=
  graph_edge_endpoints.1 crossVaultDb 1 ⟨1, 2⟩ (by decide)

end OdyssVault
